import Mathlib

/-!
Verification of the route-table / dispatch core of `USimpleHttpServer`
(`Source/SimpleHttpServer/Private/SimpleHttpServer.cpp`).

The C++ code is shallowly embedded as executable Lean definitions:

* `normalizeHttpPath` embeds the anonymous-namespace `NormalizeHttpPath`;
* `verbsMatch` embeds `VerbsMatch` (verb enums are `uint8` bitmasks, embedded
  as `Nat`; all enum values fit in 8 bits, and `|||`/`&&&` of values below
  256 stay below 256, so no truncation is needed);
* `TMap` embeds Unreal's `TMap` as an association list whose `addEntry`
  replaces the value of an existing key in place and otherwise appends
  (the only observations the code makes are `Find`/`Contains`);
* `ServerState` holds the `USimpleHttpServer` fields the .cpp reads and
  writes (`RouteDelegates`, `RouteHandlers`, `RouteVerbs`,
  `CreatedRouteHandlers`, `bRootPreprocessorRegistered`, `bServerStarted`,
  `CurrentServerPort`, validity of `HttpRouter`,
  `RootRequestPreprocessorHandle`);
* `RouterState` models the external `IHttpRouter`: the set of physically
  bound routes (with fresh numeric handles), registered preprocessors and
  the process-wide listening flag;
* `bindRoute`, `bindRouteNative`, `startServer`, `stopServer`,
  `handleRequest`, `handleRequestNative`, `fillNativeRequst` and
  `rootPreprocessor` embed the member functions of the same names
  (`rootPreprocessor` is the lambda registered by
  `BindRoute`/`BindRouteNative` for the root path).

External engine behaviour that the .cpp only calls into is made explicit:
`FHttpServerModule::GetHttpRouter` becomes the `routerAvailable` argument of
`startServer`, `FHttpPath::IsValidPath` becomes the `iv` predicate argument,
`ReceiveBindRoutes` (a BlueprintImplementableEvent whose body is app code)
becomes a `List BindCmd` script executed by `startServer`, and UTF-8 body
decoding becomes a `decode` function argument.  Dispatch functions return,
next to the `bool` result of the C++ function, the list of observable
`DispatchEvent`s (handler invocations and `OnComplete` calls) they perform.
-/

namespace SimpleHttpServer

/-- Whitespace predicate used by `FString::TrimStartAndEndInline`
(`FChar::IsWhitespace` on the ASCII whitespace characters). -/
def isWhitespaceChar (c : Char) : Bool :=
  c = ' ' || c = '\t' || c = '\n' || c = Char.ofNat 11 || c = Char.ofNat 12 || c = '\r'

/-- List-of-characters version of `TrimStartAndEndInline`: drop whitespace
from the front, then from the back. -/
def trimChars (l : List Char) : List Char :=
  ((l.dropWhile isWhitespaceChar).reverse.dropWhile isWhitespaceChar).reverse

/-- The loop `while (InPath.Len() > 1 && InPath.EndsWith("/")) LeftChopInline(1)`
acting on the reversed character list: while the list still has at least two
characters and starts (i.e. the path ends) with a slash, drop it. -/
def chopSlashesRev : List Char → List Char
  | c₁ :: c₂ :: rest => if c₁ = '/' then chopSlashesRev (c₂ :: rest) else c₁ :: c₂ :: rest
  | l => l

/-- Strip trailing slashes down to length 1 (the `while` loop of
`NormalizeHttpPath`). -/
def stripTrailingSlashes (l : List Char) : List Char :=
  (chopSlashesRev l.reverse).reverse

/-- Character-list body of `NormalizeHttpPath`: trim, map empty to "/",
prepend "/" when missing, strip trailing slashes down to length 1. -/
def normalizeChars (l : List Char) : List Char :=
  let t := trimChars l
  if t = [] then ['/']
  else
    let t2 := if t.head? = some '/' then t else '/' :: t
    stripTrailingSlashes t2

/-- Embedding of the anonymous-namespace `NormalizeHttpPath`. -/
def normalizeHttpPath (s : String) : String :=
  ⟨normalizeChars s.data⟩

/-- Embedding of the anonymous-namespace `VerbsMatch`: bitwise AND of the
two `uint8` masks, tested against zero. -/
def verbsMatch (allowedVerbs requestVerb : Nat) : Bool :=
  decide ((allowedVerbs &&& requestVerb) ≠ 0)

/-- Verb bit for GET. Modelled from the spec: the verb enumeration
(`ENativeHttpServerRequestVerbs`, declared in a header that is not part of
the sources) is an unsigned bit field with one bit per verb. -/
def VERB_GET : Nat := 1

/-- Verb bit for POST (see `VERB_GET`). -/
def VERB_POST : Nat := 2

/-- Verb bit for PUT (see `VERB_GET`). -/
def VERB_PUT : Nat := 4

/-- Verb bit for PATCH (see `VERB_GET`). -/
def VERB_PATCH : Nat := 8

/-- Verb bit for DELETE (see `VERB_GET`). -/
def VERB_DELETE : Nat := 16

/-- Unreal `TMap` embedded as an association list; the code only uses
`Add`, `Find` and `Contains`. -/
abbrev TMap (α : Type) : Type := List (String × α)

/-- `TMap::Find`: value of the key, if present (keys are unique in a real
`TMap`; on lists we return the first occurrence). -/
def findEntry {α : Type} : TMap α → String → Option α
  | [], _ => none
  | (k, v) :: rest, key => if k = key then some v else findEntry rest key

/-- `TMap::Add`: replace the value of an existing key in place, otherwise
append the new pair. -/
def addEntry {α : Type} : TMap α → String → α → TMap α
  | [], key, v => [(key, v)]
  | (k, v') :: rest, key, v =>
      if k = key then (key, v) :: rest else (k, v') :: addEntry rest key v

/-- `TMap::Contains`. -/
def containsKey {α : Type} (m : TMap α) (key : String) : Bool :=
  (findEntry m key).isSome

/-- `FNativeHttpServerRequest`: the translated request record handed to the
registered handlers (fields as used by `FillNativeRequst`). -/
structure NativeHttpServerRequest where
  verb : Nat
  relativePath : String
  headers : TMap String
  pathParams : TMap String
  queryParams : TMap String
  body : String
deriving DecidableEq

/-- `FHttpServerResponse`: status code, body bytes, header map and protocol
version marker. -/
structure HttpServerResponse where
  code : Nat
  body : List Nat
  headers : TMap (List String)
  httpVersion : Nat
deriving DecidableEq

/-- `FNativeHttpServerResponse`, which wraps an `FHttpServerResponse`. -/
structure NativeHttpServerResponse where
  httpServerResponse : HttpServerResponse
deriving DecidableEq

/-- Modelled from the spec: `FHttpServerResponse::Error(NotFound)` is engine
code that is not part of the sources; per the spec the Not-Found outcome is
a response with status 404 and empty body. -/
def notFoundResponse : HttpServerResponse :=
  { code := 404, body := [], headers := [], httpVersion := 0 }

/-- `FHttpServerRequest`: the transport-level request (`RelativePath` is
observed through `IsRoot`/`GetPath`, both embedded as the raw string). -/
structure HttpServerRequest where
  verb : Nat
  relativePath : String
  headers : TMap (List String)
  pathParams : TMap String
  queryParams : TMap String
  body : List Nat

/-- A callback-style handler (`FHttpServerRequestDelegate` payload). -/
abbrev CallbackFn : Type := NativeHttpServerRequest → NativeHttpServerResponse

/-- `FHttpServerRequestDelegate`: a dynamic delegate, bound (`some`) or
unbound (`none`); `Execute` runs the payload, `IsBound` is `isSome`. -/
abbrev RouteDelegate : Type := Option CallbackFn

/-- `FHttpRouteHandler`: a direct-style handler, invoked for its side
effects and returning nothing. -/
abbrev DirectFn : Type := NativeHttpServerRequest → Unit

/-- Which member function a physically bound route dispatches through. -/
inductive HandlerKind where
  | callback
  | native
deriving DecidableEq

/-- A route physically bound into the external `IHttpRouter`: the opaque
handle it returned, the path and verb mask it was bound with, and the
handler kind of the lambda. -/
structure BoundEntry where
  handle : Nat
  path : String
  verbs : Nat
  kind : HandlerKind
deriving DecidableEq

/-- The external `IHttpRouter` / `FHttpServerModule` state: physically
bound routes, registered request preprocessors (by handle), a fresh-handle
counter and the process-wide listening flag. -/
structure RouterState where
  boundRoutes : List BoundEntry
  preprocessors : List Nat
  nextHandle : Nat
  listening : Bool

/-- The `USimpleHttpServer` fields read and written by the .cpp.
`hasRouter` is `HttpRouter.IsValid()`. -/
structure ServerState where
  routeDelegates : TMap RouteDelegate
  routeHandlers : TMap DirectFn
  routeVerbs : TMap Nat
  createdRouteHandlers : List Nat
  bRootPreprocessorRegistered : Bool
  bServerStarted : Bool
  currentServerPort : Int
  hasRouter : Bool
  rootRequestPreprocessorHandle : Nat

/-- A freshly constructed `USimpleHttpServer` (empty maps, no router). -/
def initState : ServerState :=
  { routeDelegates := [], routeHandlers := [], routeVerbs := [],
    createdRouteHandlers := [], bRootPreprocessorRegistered := false,
    bServerStarted := false, currentServerPort := 0, hasRouter := false,
    rootRequestPreprocessorHandle := 0 }

/-- An external router with nothing bound. -/
def initRouter : RouterState :=
  { boundRoutes := [], preprocessors := [], nextHandle := 0, listening := false }

/-- The shared verb-mask update of `BindRoute`/`BindRouteNative`: OR into an
existing mask for the normalized path, otherwise add the new mask. -/
def mergeVerb (m : TMap Nat) (np : String) (verbs : Nat) : TMap Nat :=
  match findEntry m np with
  | some existing => addEntry m np (existing ||| verbs)
  | none => addEntry m np verbs

/-- Observable dispatch events: `OnComplete` invocations and handler
invocations (with the translated request each handler receives). -/
inductive DispatchEvent where
  | completed (resp : HttpServerResponse)
  | ranCallback (path : String) (req : NativeHttpServerRequest) (resp : NativeHttpServerResponse)
  | ranNative (path : String) (req : NativeHttpServerRequest)

/-- True exactly on `OnComplete` events. -/
def isCompletion : DispatchEvent → Bool
  | .completed _ => true
  | _ => false

/-- True exactly on direct-handler invocations. -/
def isNativeRun : DispatchEvent → Bool
  | .ranNative _ _ => true
  | _ => false

/-- Number of `OnComplete` calls in an event list. -/
def countCompletions (events : List DispatchEvent) : Nat :=
  (events.filter isCompletion).length

/-- The header-flattening loop of `FillNativeRequst`: `StrHeaderVals += val
+ TEXT(" ")` over the values, in order. -/
def flattenHeaderVals (vals : List String) : String :=
  vals.foldl (fun acc v => acc ++ v ++ " ") ""

/-- Embedding of `USimpleHttpServer::FillNativeRequst`; `decode` is the
engine's UTF-8-bytes-to-string conversion (`FUTF8ToTCHAR`). -/
def fillNativeRequst (decode : List Nat → String) (request : HttpServerRequest) :
    NativeHttpServerRequest :=
  { verb := request.verb
    relativePath := request.relativePath
    headers := request.headers.foldl (fun m h => addEntry m h.1 (flattenHeaderVals h.2)) []
    pathParams := request.pathParams
    queryParams := request.queryParams
    body := decode request.body }

/-- Embedding of `USimpleHttpServer::HandleRequest`: returns the C++ result
together with the dispatch events it performs. -/
def handleRequest (decode : List Nat → String) (s : ServerState) (httpPath : String)
    (request : HttpServerRequest) : Bool × List DispatchEvent :=
  let nr := fillNativeRequst decode request
  match findEntry s.routeDelegates httpPath with
  | some (some f) =>
      let resp := f nr
      (true, [DispatchEvent.ranCallback httpPath nr resp,
              DispatchEvent.completed
                { code := resp.httpServerResponse.code
                  body := resp.httpServerResponse.body
                  headers := resp.httpServerResponse.headers
                  httpVersion := resp.httpServerResponse.httpVersion }])
  | _ => (true, [DispatchEvent.completed notFoundResponse])

/-- Embedding of `USimpleHttpServer::HandleRequestNative`. A found direct
handler is invoked and owns any response; otherwise the dispatcher itself
completes with Not Found. -/
def handleRequestNative (decode : List Nat → String) (s : ServerState) (httpPath : String)
    (request : HttpServerRequest) : Bool × List DispatchEvent :=
  let nr := fillNativeRequst decode request
  match findEntry s.routeHandlers httpPath with
  | some _ => (true, [DispatchEvent.ranNative httpPath nr])
  | none => (true, [DispatchEvent.completed notFoundResponse])

/-- Embedding of the root-request preprocessor lambda registered (with
identical bodies) by `BindRoute` and `BindRouteNative` for path "/". -/
def rootPreprocessor (decode : List Nat → String) (s : ServerState)
    (request : HttpServerRequest) : Bool × List DispatchEvent :=
  if request.relativePath ≠ "/" then (false, [])
  else
    let rest :=
      if containsKey s.routeDelegates "/" then handleRequest decode s "/" request
      else if containsKey s.routeHandlers "/" then handleRequestNative decode s "/" request
      else (false, [])
    match findEntry s.routeVerbs "/" with
    | some allowed => if verbsMatch allowed request.verb then rest else (false, [])
    | none => rest

/-- Embedding of `USimpleHttpServer::BindRoute`. `iv` is the engine's
`FHttpPath::IsValidPath` on the normalized path. -/
def bindRoute (iv : String → Bool) (httpPath : String) (verbs : Nat) (d : RouteDelegate) :
    ServerState × RouterState → ServerState × RouterState
  | (s, r) =>
    let np := normalizeHttpPath httpPath
    let s := { s with routeDelegates := addEntry s.routeDelegates np d
                      routeVerbs := mergeVerb s.routeVerbs np verbs }
    if s.hasRouter then
      if np = "/" then
        if s.bRootPreprocessorRegistered then (s, r)
        else
          ({ s with rootRequestPreprocessorHandle := r.nextHandle
                    bRootPreprocessorRegistered := true },
           { r with preprocessors := r.preprocessors ++ [r.nextHandle]
                    nextHandle := r.nextHandle + 1 })
      else if iv np then
        ({ s with createdRouteHandlers := s.createdRouteHandlers ++ [r.nextHandle] },
         { r with boundRoutes := r.boundRoutes ++
                    [{ handle := r.nextHandle, path := np, verbs := verbs,
                       kind := HandlerKind.callback }]
                  nextHandle := r.nextHandle + 1 })
      else (s, r)
    else (s, r)

/-- Embedding of `USimpleHttpServer::BindRouteNative`. -/
def bindRouteNative (iv : String → Bool) (httpPath : String) (verbs : Nat) (h : DirectFn) :
    ServerState × RouterState → ServerState × RouterState
  | (s, r) =>
    let np := normalizeHttpPath httpPath
    let s := { s with routeHandlers := addEntry s.routeHandlers np h
                      routeVerbs := mergeVerb s.routeVerbs np verbs }
    if s.hasRouter then
      if np = "/" then
        if s.bRootPreprocessorRegistered then (s, r)
        else
          ({ s with rootRequestPreprocessorHandle := r.nextHandle
                    bRootPreprocessorRegistered := true },
           { r with preprocessors := r.preprocessors ++ [r.nextHandle]
                    nextHandle := r.nextHandle + 1 })
      else if iv np then
        ({ s with createdRouteHandlers := s.createdRouteHandlers ++ [r.nextHandle] },
         { r with boundRoutes := r.boundRoutes ++
                    [{ handle := r.nextHandle, path := np, verbs := verbs,
                       kind := HandlerKind.native }]
                  nextHandle := r.nextHandle + 1 })
      else (s, r)
    else (s, r)

/-- One registration call made by the application's `ReceiveBindRoutes`
implementation. -/
inductive BindCmd where
  | callback (path : String) (verbs : Nat) (d : RouteDelegate)
  | native (path : String) (verbs : Nat) (h : DirectFn)

/-- Execute one registration call. -/
def runBindCmd (iv : String → Bool) (sr : ServerState × RouterState) :
    BindCmd → ServerState × RouterState
  | .callback p v d => bindRoute iv p v d sr
  | .native p v h => bindRouteNative iv p v h sr

/-- Modelled from the spec: `BindRoutes` calls `ReceiveBindRoutes`, a
BlueprintImplementableEvent whose body is application code outside the
sources; it is modelled as a script of registration calls run in order. -/
def runScript (iv : String → Bool) (script : List BindCmd)
    (sr : ServerState × RouterState) : ServerState × RouterState :=
  script.foldl (runBindCmd iv) sr

/-- Embedding of `USimpleHttpServer::StartServer`. `routerAvailable` is
whether `FHttpServerModule::GetHttpRouter(port)` returns a valid router;
`script` is the `ReceiveBindRoutes` bind pass (see `runScript`). -/
def startServer (iv : String → Bool) (script : List BindCmd) (routerAvailable : Bool)
    (port : Int) : ServerState × RouterState → ServerState × RouterState
  | (s, r) =>
    if port ≤ 0 then (s, r)
    else
      let s := { s with currentServerPort := port, hasRouter := routerAvailable }
      if routerAvailable then
        let sr := runScript iv script (s, r)
        ({ sr.1 with bServerStarted := true }, { sr.2 with listening := true })
      else ({ s with bServerStarted := false }, r)

/-- Embedding of `USimpleHttpServer::StopServer`: stop all listeners
unconditionally; with a valid router, unregister the root preprocessor (if
registered) and unbind every handle in `CreatedRouteHandlers`. -/
def stopServer : ServerState × RouterState → ServerState × RouterState
  | (s, r) =>
    let r := { r with listening := false }
    if s.hasRouter then
      let r :=
        if s.bRootPreprocessorRegistered then
          { r with preprocessors :=
              r.preprocessors.filter (fun h => h ≠ s.rootRequestPreprocessorHandle) }
        else r
      let s :=
        if s.bRootPreprocessorRegistered then { s with bRootPreprocessorRegistered := false }
        else s
      let br2 :=
        s.createdRouteHandlers.foldl (fun br h => br.filter (fun e => e.handle ≠ h)) r.boundRoutes
      (s, { r with boundRoutes := br2 })
    else (s, r)

/-- Normalized path of a registration call. -/
def cmdPath : BindCmd → String
  | .callback p _ _ => normalizeHttpPath p
  | .native p _ _ => normalizeHttpPath p

/-- Verb mask of a registration call. -/
def cmdVerbs : BindCmd → Nat
  | .callback _ v _ => v
  | .native _ v _ => v

/-- Handler kind of a registration call. -/
def cmdKind : BindCmd → HandlerKind
  | .callback _ _ _ => HandlerKind.callback
  | .native _ _ _ => HandlerKind.native

/-- Handle-freshness invariant relating a server to the external router:
every handle this instance created, and every handle bound in the router,
is below the router's fresh-handle counter. -/
def handlesBelow (sr : ServerState × RouterState) : Prop :=
  (∀ h ∈ sr.1.createdRouteHandlers, h < sr.2.nextHandle)
  ∧ (∀ e ∈ sr.2.boundRoutes, e.handle < sr.2.nextHandle)

/-- A path-validity predicate accepting every path (concrete test fixture). -/
def ivTrue : String → Bool := fun _ => true

/-- A concrete body decoder (test fixture). -/
def decode0 : List Nat → String := fun _ => ""

/-- A concrete callback-style handler (test fixture). -/
def cbFn0 : CallbackFn :=
  fun _ => { httpServerResponse := { code := 200, body := [79, 75], headers := [], httpVersion := 11 } }

/-- A concrete direct-style handler (test fixture). -/
def dirFn0 : DirectFn := fun _ => ()

/-- A concrete transport request to the root path with the given verb. -/
def reqRoot (v : Nat) : HttpServerRequest :=
  { verb := v, relativePath := "/", headers := [], pathParams := [], queryParams := [], body := [] }

/-- A concrete transport request to "/x". -/
def reqX : HttpServerRequest :=
  { verb := VERB_GET, relativePath := "/x", headers := [], pathParams := [], queryParams := [],
    body := [] }

/-- A concrete transport request carrying a multi-value header. -/
def reqHdr : HttpServerRequest :=
  { verb := VERB_GET, relativePath := "/h", headers := [("h", ["a", "b"])], pathParams := [],
    queryParams := [], body := [] }

/-- A fresh server already holding a valid router (test fixture). -/
def serverWithRouter : ServerState := { initState with hasRouter := true }

/-- Both a callback route and a native route registered for "/x" while a
router is held: the run used to examine cross-kind precedence. -/
def dualBoundRun : ServerState × RouterState :=
  bindRouteNative ivTrue "/x" VERB_GET dirFn0
    (bindRoute ivTrue "/x" VERB_GET (some cbFn0) (serverWithRouter, initRouter))

/-- Register "/a" before any start (no router yet), then start successfully
with an empty `ReceiveBindRoutes` pass: the run used to examine whether
`StartServer` binds table entries registered before start. -/
def preRegisteredRun : ServerState × RouterState :=
  startServer ivTrue [] true 8080
    (bindRoute ivTrue "/a" VERB_GET (some cbFn0) (initState, initRouter))

/-- A server with a callback handler and verb mask registered for "/"
(test fixture for the root preprocessor). -/
def rootCallbackState : ServerState :=
  { initState with routeDelegates := [("/", some cbFn0)], routeVerbs := [("/", VERB_GET)] }

/-- A server with only a direct handler and verb mask registered for "/"
(test fixture for the root preprocessor). -/
def rootNativeState : ServerState :=
  { initState with routeHandlers := [("/", dirFn0)], routeVerbs := [("/", VERB_GET)] }

/-! Association-map lemmas. -/

theorem findEntry_addEntry_self {α : Type} (m : TMap α) (k : String) (v : α) :
    findEntry (addEntry m k v) k = some v := by
  induction m with
  | nil => simp [addEntry, findEntry]
  | cons p rest ih =>
    by_cases hk : p.1 = k
    · simp [addEntry, hk, findEntry]
    · simp [addEntry, hk, findEntry, ih]

theorem findEntry_addEntry_ne {α : Type} (m : TMap α) (k k' : String) (v : α)
    (h : k ≠ k') : findEntry (addEntry m k v) k' = findEntry m k' := by
  induction m with
  | nil => simp [addEntry, findEntry, h]
  | cons p rest ih =>
    by_cases hk : p.1 = k
    · simp [addEntry, hk, findEntry, h]
    · simp only [addEntry, hk, if_false, findEntry]
      by_cases hk' : p.1 = k'
      · simp [hk']
      · simp [hk', ih]

theorem findEntry_mergeVerb_none (m : TMap Nat) (np : String) (v : Nat)
    (h : findEntry m np = none) : findEntry (mergeVerb m np v) np = some v := by
  simp [mergeVerb, h, findEntry_addEntry_self]

theorem findEntry_mergeVerb_some (m : TMap Nat) (np : String) (v e : Nat)
    (h : findEntry m np = some e) : findEntry (mergeVerb m np v) np = some (e ||| v) := by
  simp [mergeVerb, h, findEntry_addEntry_self]

/-! Path-normalization lemmas. -/

theorem dropWhile_eq_self_of_none (p : Char → Bool) (l : List Char)
    (h : ∀ c ∈ l, p c = false) : l.dropWhile p = l := by
  cases l with
  | nil => rfl
  | cons a as => simp [List.dropWhile_cons, h a (List.mem_cons_self a as)]

theorem trimChars_eq_self (l : List Char) (h : ∀ c ∈ l, isWhitespaceChar c = false) :
    trimChars l = l := by
  unfold trimChars
  rw [dropWhile_eq_self_of_none _ _ h, dropWhile_eq_self_of_none, List.reverse_reverse]
  intro c hc
  exact h c (List.mem_reverse.mp hc)

theorem trimChars_subset (l : List Char) : ∀ c ∈ trimChars l, c ∈ l := by
  intro c hc
  unfold trimChars at hc
  have h1 := (List.dropWhile_sublist (l := (l.dropWhile isWhitespaceChar).reverse)
    isWhitespaceChar).subset (List.mem_reverse.mp hc)
  exact (List.dropWhile_sublist isWhitespaceChar).subset (List.mem_reverse.mp h1)

theorem chopSlashesRev_cons₂ (c₁ c₂ : Char) (rest : List Char) :
    chopSlashesRev (c₁ :: c₂ :: rest)
      = if c₁ = '/' then chopSlashesRev (c₂ :: rest) else c₁ :: c₂ :: rest := rfl

theorem chopSlashesRev_subset : ∀ (l : List Char), ∀ c ∈ chopSlashesRev l, c ∈ l := by
  intro l
  induction l with
  | nil => intro c hc; exact hc
  | cons a tail ih =>
    cases tail with
    | nil => intro c hc; exact hc
    | cons b rest =>
      intro c hc
      rw [chopSlashesRev_cons₂] at hc
      by_cases ha : a = '/'
      · rw [if_pos ha] at hc
        exact List.mem_cons_of_mem a (ih c hc)
      · rw [if_neg ha] at hc
        exact hc

theorem chopSlashesRev_ne_nil : ∀ (l : List Char), l ≠ [] → chopSlashesRev l ≠ [] := by
  intro l
  induction l with
  | nil => intro h; exact absurd rfl h
  | cons a tail ih =>
    cases tail with
    | nil => intro _; simp [chopSlashesRev]
    | cons b rest =>
      intro _
      rw [chopSlashesRev_cons₂]
      by_cases ha : a = '/'
      · rw [if_pos ha]; exact ih (by simp)
      · rw [if_neg ha]; simp

theorem chopSlashesRev_getLast? : ∀ (l : List Char), l ≠ [] →
    (chopSlashesRev l).getLast? = l.getLast? := by
  intro l
  induction l with
  | nil => intro h; exact absurd rfl h
  | cons a tail ih =>
    cases tail with
    | nil => intro _; rfl
    | cons b rest =>
      intro _
      rw [chopSlashesRev_cons₂]
      by_cases ha : a = '/'
      · rw [if_pos ha, List.getLast?_cons_cons]
        exact ih (by simp)
      · rw [if_neg ha]

theorem chopSlashesRev_shape : ∀ (l : List Char),
    (chopSlashesRev l).length ≤ 1 ∨ (chopSlashesRev l).head? ≠ some '/' := by
  intro l
  induction l with
  | nil => left; simp [chopSlashesRev]
  | cons a tail ih =>
    cases tail with
    | nil => left; simp [chopSlashesRev]
    | cons b rest =>
      rw [chopSlashesRev_cons₂]
      by_cases ha : a = '/'
      · rw [if_pos ha]; exact ih
      · rw [if_neg ha]; right; simp [ha]

theorem chopSlashesRev_of_shape : ∀ (l : List Char),
    l.length ≤ 1 ∨ l.head? ≠ some '/' → chopSlashesRev l = l := by
  intro l h
  match l with
  | [] => rfl
  | [c] => rfl
  | a :: b :: rest =>
    rw [chopSlashesRev_cons₂, if_neg]
    intro ha
    rcases h with h | h
    · simp at h
    · exact h (by simp [ha])

theorem stripTrailingSlashes_spec (l : List Char) (hne : l ≠ []) (hhead : l.head? = some '/') :
    stripTrailingSlashes l ≠ []
    ∧ (stripTrailingSlashes l).head? = some '/'
    ∧ stripTrailingSlashes (stripTrailingSlashes l) = stripTrailingSlashes l
    ∧ (∀ c ∈ stripTrailingSlashes l, c ∈ l) := by
  have hmne : l.reverse ≠ [] := by simpa [List.reverse_eq_nil_iff] using hne
  have hcne : chopSlashesRev l.reverse ≠ [] := chopSlashesRev_ne_nil l.reverse hmne
  refine ⟨?_, ?_, ?_, ?_⟩
  · simpa [stripTrailingSlashes, List.reverse_eq_nil_iff] using hcne
  · rw [stripTrailingSlashes, List.head?_reverse, chopSlashesRev_getLast? l.reverse hmne,
      List.getLast?_reverse]
    exact hhead
  · rw [stripTrailingSlashes, stripTrailingSlashes, List.reverse_reverse,
      chopSlashesRev_of_shape _ (chopSlashesRev_shape l.reverse)]
  · intro c hc
    rw [stripTrailingSlashes, List.mem_reverse] at hc
    exact List.mem_reverse.mp (chopSlashesRev_subset l.reverse c hc)

theorem normalizeChars_idem (l : List Char) (h : ∀ c ∈ l, isWhitespaceChar c = false) :
    normalizeChars (normalizeChars l) = normalizeChars l := by
  have ht : trimChars l = l := trimChars_eq_self l h
  by_cases hl : l = []
  · subst hl
    decide
  · have hfirst : normalizeChars l
        = stripTrailingSlashes (if l.head? = some '/' then l else '/' :: l) := by
      rw [normalizeChars]
      simp only [ht, if_neg hl]
    have h2ne : (if l.head? = some '/' then l else '/' :: l) ≠ [] := by
      by_cases hh : l.head? = some '/'
      · simpa [hh] using hl
      · simp [hh]
    have h2head : (if l.head? = some '/' then l else '/' :: l).head? = some '/' := by
      by_cases hh : l.head? = some '/'
      · rw [if_pos hh]; exact hh
      · simp [hh]
    obtain ⟨sne, shead, sidem, ssub⟩ := stripTrailingSlashes_spec _ h2ne h2head
    have hrws : ∀ c ∈ stripTrailingSlashes (if l.head? = some '/' then l else '/' :: l),
        isWhitespaceChar c = false := by
      intro c hc
      have hc2 := ssub c hc
      by_cases hh : l.head? = some '/'
      · rw [if_pos hh] at hc2
        exact h c hc2
      · rw [if_neg hh] at hc2
        rcases List.mem_cons.mp hc2 with hc3 | hc3
        · subst hc3; decide
        · exact h c hc3
    rw [hfirst]
    rw [normalizeChars]
    simp only [trimChars_eq_self _ hrws, if_neg sne, if_pos shead]
    exact sidem

/-- C7 counterexample: normalization is not idempotent as stated.  At the
input "a /" the normalizer returns "/a " (chopping the trailing slash
exposes a space that only a second run would trim away), and a second
application yields the different string "/a". -/
theorem normalizeHttpPath_not_idempotent_cex :
    normalizeHttpPath (normalizeHttpPath "a /") ≠ normalizeHttpPath "a /" := by decide

/-- C7 (amended): path normalization is idempotent on every string that
contains no whitespace character; for all such s,
normalize(normalize(s)) == normalize(s). -/
theorem normalizeHttpPath_idempotent_noWhitespace (s : String)
    (h : ∀ c ∈ s.data, isWhitespaceChar c = false) :
    normalizeHttpPath (normalizeHttpPath s) = normalizeHttpPath s :=
  congrArg String.mk (normalizeChars_idem s.data h)

/-- Witness for the amended C7 theorem at the concrete whitespace-free
input "abc//". -/
theorem normalizeHttpPath_idempotent_noWhitespace_witness :
    normalizeHttpPath (normalizeHttpPath "abc//") = normalizeHttpPath "abc//" :=
  normalizeHttpPath_idempotent_noWhitespace "abc//" (by decide)

/-- C8: path normalization is a total function implementing trim /
empty-to-root / missing-slash-prepend / trailing-slash-strip, with the six
stated values. -/
theorem normalizeHttpPath_examples :
    normalizeHttpPath "" = "/"
    ∧ normalizeHttpPath "  " = "/"
    ∧ normalizeHttpPath "foo" = "/foo"
    ∧ normalizeHttpPath "/foo/" = "/foo"
    ∧ normalizeHttpPath "/foo//" = "/foo"
    ∧ normalizeHttpPath "/" = "/" := by
  refine ⟨?_, ?_, ?_, ?_, ?_, ?_⟩ <;> decide

/-! Bitmask lemmas. -/

theorem or_ne_zero_left (a b : Nat) (h : a ≠ 0) : a ||| b ≠ 0 := by
  intro h0
  rcases Nat.exists_most_significant_bit h with ⟨i, hi, _⟩
  have hb : (a ||| b).testBit i = true := by simp [Nat.testBit_or, hi]
  rw [h0] at hb
  simp [Nat.zero_testBit] at hb

theorem eq_zero_of_or_eq_zero (a b : Nat) (h : a ||| b = 0) : a = 0 ∧ b = 0 := by
  constructor
  · by_contra ha; exact or_ne_zero_left a b ha h
  · by_contra hb
    exact or_ne_zero_left b a hb (by rwa [Nat.or_comm])

theorem verbsMatch_or_left (v₁ v₂ w : Nat) (h : verbsMatch v₁ w = true) :
    verbsMatch (v₁ ||| v₂) w = true := by
  simp only [verbsMatch, decide_eq_true_eq] at h ⊢
  rw [Nat.and_comm v₁ w] at h
  rw [Nat.and_comm (v₁ ||| v₂) w, Nat.and_or_distrib_left]
  exact or_ne_zero_left _ _ h

theorem verbsMatch_false_of_disjoint (m w : Nat) (h : w &&& m = 0) :
    verbsMatch m w = false := by
  simp only [verbsMatch]
  rw [Nat.and_comm m w, h]
  rfl

/-! Frame and characterization lemmas for the registration functions. -/

theorem bindRoute_fst_routeDelegates (iv : String → Bool) (p : String) (v : Nat)
    (d : RouteDelegate) (sr : ServerState × RouterState) :
    (bindRoute iv p v d sr).1.routeDelegates
      = addEntry sr.1.routeDelegates (normalizeHttpPath p) d := by
  obtain ⟨s, r⟩ := sr
  simp only [bindRoute]
  split <;> try rfl
  split <;> try rfl
  · split <;> rfl
  · split <;> rfl

theorem bindRoute_fst_routeHandlers (iv : String → Bool) (p : String) (v : Nat)
    (d : RouteDelegate) (sr : ServerState × RouterState) :
    (bindRoute iv p v d sr).1.routeHandlers = sr.1.routeHandlers := by
  obtain ⟨s, r⟩ := sr
  simp only [bindRoute]
  split <;> try rfl
  split <;> try rfl
  · split <;> rfl
  · split <;> rfl

theorem bindRoute_fst_routeVerbs (iv : String → Bool) (p : String) (v : Nat)
    (d : RouteDelegate) (sr : ServerState × RouterState) :
    (bindRoute iv p v d sr).1.routeVerbs
      = mergeVerb sr.1.routeVerbs (normalizeHttpPath p) v := by
  obtain ⟨s, r⟩ := sr
  simp only [bindRoute]
  split <;> try rfl
  split <;> try rfl
  · split <;> rfl
  · split <;> rfl

theorem bindRouteNative_fst_routeHandlers (iv : String → Bool) (p : String) (v : Nat)
    (hd : DirectFn) (sr : ServerState × RouterState) :
    (bindRouteNative iv p v hd sr).1.routeHandlers
      = addEntry sr.1.routeHandlers (normalizeHttpPath p) hd := by
  obtain ⟨s, r⟩ := sr
  simp only [bindRouteNative]
  split <;> try rfl
  split <;> try rfl
  · split <;> rfl
  · split <;> rfl

theorem bindRouteNative_fst_routeDelegates (iv : String → Bool) (p : String) (v : Nat)
    (hd : DirectFn) (sr : ServerState × RouterState) :
    (bindRouteNative iv p v hd sr).1.routeDelegates = sr.1.routeDelegates := by
  obtain ⟨s, r⟩ := sr
  simp only [bindRouteNative]
  split <;> try rfl
  split <;> try rfl
  · split <;> rfl
  · split <;> rfl

theorem bindRouteNative_fst_routeVerbs (iv : String → Bool) (p : String) (v : Nat)
    (hd : DirectFn) (sr : ServerState × RouterState) :
    (bindRouteNative iv p v hd sr).1.routeVerbs
      = mergeVerb sr.1.routeVerbs (normalizeHttpPath p) v := by
  obtain ⟨s, r⟩ := sr
  simp only [bindRouteNative]
  split <;> try rfl
  split <;> try rfl
  · split <;> rfl
  · split <;> rfl

theorem bindRoute_snd_bound_verbs (iv : String → Bool) (p : String) (v : Nat)
    (d : RouteDelegate) (sr : ServerState × RouterState) :
    ∀ e ∈ (bindRoute iv p v d sr).2.boundRoutes, e ∈ sr.2.boundRoutes ∨ e.verbs = v := by
  obtain ⟨s, r⟩ := sr
  intro e he
  simp only [bindRoute] at he
  split at he
  · split at he
    · split at he
      · exact Or.inl he
      · exact Or.inl he
    · split at he
      · simp only [List.mem_append, List.mem_singleton] at he
        rcases he with he | he
        · exact Or.inl he
        · subst he; exact Or.inr rfl
      · exact Or.inl he
  · exact Or.inl he

theorem bindRouteNative_snd_bound_verbs (iv : String → Bool) (p : String) (v : Nat)
    (hd : DirectFn) (sr : ServerState × RouterState) :
    ∀ e ∈ (bindRouteNative iv p v hd sr).2.boundRoutes,
      e ∈ sr.2.boundRoutes ∨ e.verbs = v := by
  obtain ⟨s, r⟩ := sr
  intro e he
  simp only [bindRouteNative] at he
  split at he
  · split at he
    · split at he
      · exact Or.inl he
      · exact Or.inl he
    · split at he
      · simp only [List.mem_append, List.mem_singleton] at he
        rcases he with he | he
        · exact Or.inl he
        · subst he; exact Or.inr rfl
      · exact Or.inl he
  · exact Or.inl he

/-- C6: for every path, a registration of one kind overwrites the previous
handler of the same kind for that path (last registration wins per kind),
while the other kind's table is untouched by the registration. -/
theorem register_lastWins_perKind (iv : String → Bool) (p : String) (v v' : Nat)
    (d d' : RouteDelegate) (hd hd' : DirectFn) (sr : ServerState × RouterState) :
    findEntry (bindRoute iv p v' d' (bindRoute iv p v d sr)).1.routeDelegates
        (normalizeHttpPath p) = some d'
    ∧ (bindRoute iv p v d sr).1.routeHandlers = sr.1.routeHandlers
    ∧ findEntry (bindRouteNative iv p v' hd' (bindRouteNative iv p v hd sr)).1.routeHandlers
        (normalizeHttpPath p) = some hd'
    ∧ (bindRouteNative iv p v hd sr).1.routeDelegates = sr.1.routeDelegates := by
  refine ⟨?_, bindRoute_fst_routeHandlers iv p v d sr, ?_,
    bindRouteNative_fst_routeDelegates iv p v hd sr⟩
  · rw [bindRoute_fst_routeDelegates, findEntry_addEntry_self]
  · rw [bindRouteNative_fst_routeHandlers, findEntry_addEntry_self]

/-- C3: registering the same path twice (here once per registration
mechanism) merges verb masks by bitwise OR: the resulting table mask is the
OR of both registrations, merging into an existing mask always ORs (never
replaces), the merged mask contains every verb of either registration, a
verb sharing no bit with the merged mask does not match it, and no route
bound by these registrations verb-matches such a verb. -/
theorem verbMask_merge (iv : String → Bool) (p : String) (v₁ v₂ : Nat) (d : RouteDelegate)
    (hd : DirectFn) (s : ServerState) (r : RouterState)
    (h0 : findEntry s.routeVerbs (normalizeHttpPath p) = none) :
    findEntry (bindRouteNative iv p v₂ hd (bindRoute iv p v₁ d (s, r))).1.routeVerbs
        (normalizeHttpPath p) = some (v₁ ||| v₂)
    ∧ (∀ (m : TMap Nat) (np : String) (e w : Nat), findEntry m np = some e →
        findEntry (mergeVerb m np w) np = some (e ||| w))
    ∧ (∀ w, verbsMatch v₁ w = true ∨ verbsMatch v₂ w = true →
        verbsMatch (v₁ ||| v₂) w = true)
    ∧ (∀ w, w &&& (v₁ ||| v₂) = 0 → verbsMatch (v₁ ||| v₂) w = false)
    ∧ (∀ w, w &&& (v₁ ||| v₂) = 0 →
        ∀ e ∈ (bindRouteNative iv p v₂ hd (bindRoute iv p v₁ d (s, r))).2.boundRoutes,
          e ∈ r.boundRoutes ∨ verbsMatch e.verbs w = false) := by
  refine ⟨?_, ?_, ?_, ?_, ?_⟩
  · rw [bindRouteNative_fst_routeVerbs, bindRoute_fst_routeVerbs]
    exact findEntry_mergeVerb_some _ _ _ _ (findEntry_mergeVerb_none _ _ _ h0)
  · intro m np e w hf
    exact findEntry_mergeVerb_some _ _ _ _ hf
  · intro w hw
    rcases hw with hw | hw
    · exact verbsMatch_or_left v₁ v₂ w hw
    · rw [Nat.or_comm]
      exact verbsMatch_or_left v₂ v₁ w hw
  · intro w hw
    exact verbsMatch_false_of_disjoint _ _ hw
  · intro w hw e he
    have hdisj : w &&& v₁ = 0 ∧ w &&& v₂ = 0 := by
      rw [Nat.and_or_distrib_left] at hw
      exact eq_zero_of_or_eq_zero _ _ hw
    rcases bindRouteNative_snd_bound_verbs iv p v₂ hd _ e he with he2 | he2
    · rcases bindRoute_snd_bound_verbs iv p v₁ d (s, r) e he2 with he3 | he3
      · exact Or.inl he3
      · exact Or.inr (by rw [he3]; exact verbsMatch_false_of_disjoint _ _ hdisj.1)
    · exact Or.inr (by rw [he2]; exact verbsMatch_false_of_disjoint _ _ hdisj.2)

/-- Witness for C3 at concrete inputs: "/a" registered with GET then POST
gives the mask GET OR POST in the table, and DELETE does not match it. -/
theorem verbMask_merge_witness :
    findEntry (bindRouteNative ivTrue "/a" VERB_POST dirFn0
        (bindRoute ivTrue "/a" VERB_GET (some cbFn0) (initState, initRouter))).1.routeVerbs
        (normalizeHttpPath "/a") = some (VERB_GET ||| VERB_POST)
    ∧ verbsMatch (VERB_GET ||| VERB_POST) VERB_DELETE = false := by
  have h := verbMask_merge ivTrue "/a" VERB_GET VERB_POST (some cbFn0) dirFn0 initState
    initRouter (by decide)
  exact ⟨h.1, h.2.2.2.1 VERB_DELETE (by decide)⟩

/-! Header-translation lemmas. -/

theorem foldl_addEntry_frame (hs : List (String × List String)) (acc : TMap String)
    (name : String) (h : ∀ q ∈ hs, q.1 ≠ name) :
    findEntry (hs.foldl (fun m q => addEntry m q.1 (flattenHeaderVals q.2)) acc) name
      = findEntry acc name := by
  induction hs generalizing acc with
  | nil => rfl
  | cons q rest ih =>
    rw [List.foldl_cons, ih _ (fun x hx => h x (List.mem_cons_of_mem q hx)),
      findEntry_addEntry_ne _ _ _ _ (h q (List.mem_cons_self q rest))]

theorem foldl_addEntry_found (hs : List (String × List String)) (acc : TMap String)
    (name : String) (vals : List String)
    (hnd : (hs.map Prod.fst).Nodup) (hf : findEntry hs name = some vals) :
    findEntry (hs.foldl (fun m q => addEntry m q.1 (flattenHeaderVals q.2)) acc) name
      = some (flattenHeaderVals vals) := by
  induction hs generalizing acc with
  | nil => simp [findEntry] at hf
  | cons q rest ih =>
    obtain ⟨k, v⟩ := q
    rw [List.map_cons, List.nodup_cons] at hnd
    by_cases hk : k = name
    · have hv : v = vals := by
        simp only [findEntry, hk, if_true] at hf
        exact Option.some.inj hf
      subst hv
      subst hk
      rw [List.foldl_cons, foldl_addEntry_frame]
      · exact findEntry_addEntry_self acc k (flattenHeaderVals v)
      · intro x hx hxe
        apply hnd.1
        rw [← hxe]
        exact @List.mem_map_of_mem _ _ rest x Prod.fst hx
    · rw [List.foldl_cons]
      have hf2 : findEntry rest name = some vals := by
        simp only [findEntry, if_neg hk] at hf
        exact hf
      exact ih _ hnd.2 hf2

/-- C9 counterexample: the header values ["a", "b"] are not flattened to
the space-joined string "a b" — the loop appends a space after every value,
so the record maps the header to "a b " (with a trailing space). -/
theorem fillNativeRequst_headers_cex :
    findEntry (fillNativeRequst decode0 reqHdr).headers "h" = some "a b "
    ∧ findEntry (fillNativeRequst decode0 reqHdr).headers "h"
        ≠ some (String.intercalate " " ["a", "b"]) :=
  ⟨rfl, by decide⟩

/-- C9 (amended): request translation flattens each multi-value header
into one string per header name, obtained by appending every value followed
by a single space, in order (space-joined with a trailing space). -/
theorem fillNativeRequst_headers (decode : List Nat → String) (request : HttpServerRequest)
    (name : String) (vals : List String)
    (hnd : (request.headers.map Prod.fst).Nodup)
    (hf : findEntry request.headers name = some vals) :
    findEntry (fillNativeRequst decode request).headers name
      = some (flattenHeaderVals vals) :=
  foldl_addEntry_found request.headers [] name vals hnd hf

/-- Witness for the amended C9 theorem at the concrete request `reqHdr`. -/
theorem fillNativeRequst_headers_witness :
    findEntry (fillNativeRequst decode0 reqHdr).headers "h"
      = some (flattenHeaderVals ["a", "b"]) :=
  fillNativeRequst_headers decode0 reqHdr "h" ["a", "b"] (by decide) (by decide)

/-- C4: a request dispatched to a path with no bound handler of the
corresponding kind completes exactly once with the Not-Found response
(status 404, empty body); the callback dispatcher always reports handled
and always calls the completion callback exactly once, and the direct
dispatcher always reports handled. -/
theorem dispatcher_notFound (decode : List Nat → String) (s : ServerState) (httpPath : String)
    (request : HttpServerRequest) :
    ((findEntry s.routeDelegates httpPath).join = none →
      handleRequest decode s httpPath request
        = (true, [DispatchEvent.completed notFoundResponse]))
    ∧ (findEntry s.routeHandlers httpPath = none →
      handleRequestNative decode s httpPath request
        = (true, [DispatchEvent.completed notFoundResponse]))
    ∧ notFoundResponse.code = 404
    ∧ notFoundResponse.body = []
    ∧ (handleRequest decode s httpPath request).1 = true
    ∧ countCompletions (handleRequest decode s httpPath request).2 = 1
    ∧ (handleRequestNative decode s httpPath request).1 = true := by
  refine ⟨?_, ?_, rfl, rfl, ?_, ?_, ?_⟩
  · intro hj
    rcases hd : findEntry s.routeDelegates httpPath with _ | od
    · simp [handleRequest, hd]
    · rcases od with _ | f
      · simp [handleRequest, hd]
      · rw [hd] at hj
        simp [Option.join] at hj
  · intro hn
    simp [handleRequestNative, hn]
  · rcases hd : findEntry s.routeDelegates httpPath with _ | od
    · simp [handleRequest, hd]
    · rcases od with _ | f <;> simp [handleRequest, hd]
  · rcases hd : findEntry s.routeDelegates httpPath with _ | od
    · simp [handleRequest, hd, countCompletions, isCompletion]
    · rcases od with _ | f <;>
        simp [handleRequest, hd, countCompletions, isCompletion, List.filter]
  · rcases hn : findEntry s.routeHandlers httpPath with _ | hdl <;>
      simp [handleRequestNative, hn]

/-- Witness for C4: dispatching to the unregistered path "/zz" on a fresh
server completes with the 404 empty-body response through both dispatch
entry points. -/
theorem dispatcher_notFound_witness :
    handleRequest decode0 initState "/zz" reqX
      = (true, [DispatchEvent.completed notFoundResponse])
    ∧ handleRequestNative decode0 initState "/zz" reqX
        = (true, [DispatchEvent.completed notFoundResponse]) :=
  ⟨(dispatcher_notFound decode0 initState "/zz" reqX).1 rfl,
   (dispatcher_notFound decode0 initState "/zz" reqX).2.1 rfl⟩

/-! Dispatch helper lemmas. -/

theorem handleRequest_handled (decode : List Nat → String) (s : ServerState)
    (httpPath : String) (request : HttpServerRequest) :
    (handleRequest decode s httpPath request).1 = true := by
  rcases hd : findEntry s.routeDelegates httpPath with _ | od
  · simp [handleRequest, hd]
  · rcases od with _ | f <;> simp [handleRequest, hd]

theorem handleRequestNative_handled (decode : List Nat → String) (s : ServerState)
    (httpPath : String) (request : HttpServerRequest) :
    (handleRequestNative decode s httpPath request).1 = true := by
  rcases hn : findEntry s.routeHandlers httpPath with _ | hdl <;>
    simp [handleRequestNative, hn]

theorem handleRequest_of_found (decode : List Nat → String) (s : ServerState)
    (httpPath : String) (request : HttpServerRequest) (f : CallbackFn)
    (hcb : findEntry s.routeDelegates httpPath = some (some f)) :
    handleRequest decode s httpPath request
      = (true,
         [DispatchEvent.ranCallback httpPath (fillNativeRequst decode request)
            (f (fillNativeRequst decode request)),
          DispatchEvent.completed
            (f (fillNativeRequst decode request)).httpServerResponse]) := by
  simp [handleRequest, hcb]

/-- C2 counterexample: with both a callback handler and a direct handler
registered for "/x", the code installs two independent listener bindings
(one per kind), and the entry point it installs for the native binding,
`HandleRequestNative`, invokes the direct handler even though a callback
handler is registered for the path — refuting "the direct handler is
invoked only when no callback handler is registered for that path". -/
theorem callback_precedence_cex :
    containsKey dualBoundRun.1.routeDelegates "/x" = true
    ∧ (handleRequestNative decode0 dualBoundRun.1 "/x" reqX).2
        = [DispatchEvent.ranNative "/x" (fillNativeRequst decode0 reqX)]
    ∧ dualBoundRun.2.boundRoutes.map (fun e => (e.path, e.kind))
        = [("/x", HandlerKind.callback), ("/x", HandlerKind.native)] :=
  ⟨rfl, rfl, rfl⟩

/-- C2 (amended): precedence between the two handler kinds is implemented
for the root path: when both kinds are registered for "/", the root
preprocessor invokes only the callback handler and its returned response is
what reaches the completion callback; it dispatches to the direct handler
only when no callback entry exists for "/".  For non-root paths each
registration installs its own listener binding whose entry point invokes
only its own kind (see the counterexample). -/
theorem root_callback_precedence (decode : List Nat → String) (s : ServerState)
    (request : HttpServerRequest) (f : CallbackFn)
    (hroot : request.relativePath = "/")
    (hverb : ∀ m, findEntry s.routeVerbs "/" = some m → verbsMatch m request.verb = true)
    (hcb : findEntry s.routeDelegates "/" = some (some f)) :
    rootPreprocessor decode s request
      = (true,
         [DispatchEvent.ranCallback "/" (fillNativeRequst decode request)
            (f (fillNativeRequst decode request)),
          DispatchEvent.completed
            (f (fillNativeRequst decode request)).httpServerResponse])
    ∧ (∀ e ∈ (rootPreprocessor decode s request).2, isNativeRun e = false)
    ∧ (∀ (s₂ : ServerState) (req₂ : HttpServerRequest), req₂.relativePath = "/" →
        (∀ m, findEntry s₂.routeVerbs "/" = some m → verbsMatch m req₂.verb = true) →
        containsKey s₂.routeDelegates "/" = false →
        containsKey s₂.routeHandlers "/" = true →
        rootPreprocessor decode s₂ req₂ = handleRequestNative decode s₂ "/" req₂) := by
  have hne : ¬ (request.relativePath ≠ "/") := by simp [hroot]
  have hck : containsKey s.routeDelegates "/" = true := by simp [containsKey, hcb]
  have h1 : rootPreprocessor decode s request = handleRequest decode s "/" request := by
    simp only [rootPreprocessor, if_neg hne]
    rcases hm : findEntry s.routeVerbs "/" with _ | m
    · simp [hck]
    · simp [hck, hverb m hm]
  have h2 := handleRequest_of_found decode s "/" request f hcb
  refine ⟨h1.trans h2, ?_, ?_⟩
  · rw [h1, h2]
    intro e he
    simp only [List.mem_cons, List.not_mem_nil, or_false] at he
    rcases he with he | he <;> subst he <;> rfl
  · intro s₂ req₂ hroot₂ hverb₂ hncb hnat
    have hne₂ : ¬ (req₂.relativePath ≠ "/") := by simp [hroot₂]
    simp only [rootPreprocessor, if_neg hne₂]
    rcases hm : findEntry s₂.routeVerbs "/" with _ | m
    · simp [hncb, hnat]
    · simp [hncb, hnat, hverb₂ m hm]

/-- Witness for the amended C2 theorem: with callback and mask registered
for "/", a GET root request is resolved by the preprocessor through the
callback handler, whose response reaches the completion callback. -/
theorem root_callback_precedence_witness :
    rootPreprocessor decode0 rootCallbackState (reqRoot VERB_GET)
      = (true,
         [DispatchEvent.ranCallback "/" (fillNativeRequst decode0 (reqRoot VERB_GET))
            (cbFn0 (fillNativeRequst decode0 (reqRoot VERB_GET))),
          DispatchEvent.completed
            (cbFn0 (fillNativeRequst decode0 (reqRoot VERB_GET))).httpServerResponse]) :=
  (root_callback_precedence decode0 rootCallbackState (reqRoot VERB_GET) cbFn0 rfl
    (fun m hm => by
      have hm2 : some VERB_GET = some m := by rw [← hm]; rfl
      cases hm2
      decide)
    rfl).1

/-- C5: the root preprocessor returns not-handled for every non-root
request; for a root request it rechecks the verb mask registered for "/"
and returns not-handled when the verb is not in the mask; otherwise it
dispatches to the handler registered for "/" (callback first, else direct)
and returns handled; and registering "/" with a live router binds no normal
route and creates no route handle — it only registers the preprocessor,
once. -/
theorem rootPreprocessor_contract (decode : List Nat → String) (s : ServerState)
    (request : HttpServerRequest) :
    (request.relativePath ≠ "/" → rootPreprocessor decode s request = (false, []))
    ∧ (∀ m, request.relativePath = "/" → findEntry s.routeVerbs "/" = some m →
        verbsMatch m request.verb = false → rootPreprocessor decode s request = (false, []))
    ∧ (request.relativePath = "/" →
        (∀ m, findEntry s.routeVerbs "/" = some m → verbsMatch m request.verb = true) →
        (containsKey s.routeDelegates "/" = true →
          rootPreprocessor decode s request = handleRequest decode s "/" request
          ∧ (rootPreprocessor decode s request).1 = true)
        ∧ (containsKey s.routeDelegates "/" = false → containsKey s.routeHandlers "/" = true →
          rootPreprocessor decode s request = handleRequestNative decode s "/" request
          ∧ (rootPreprocessor decode s request).1 = true))
    ∧ (∀ (iv : String → Bool) (v : Nat) (d : RouteDelegate) (r : RouterState),
        s.hasRouter = true →
        (bindRoute iv "/" v d (s, r)).2.boundRoutes = r.boundRoutes
        ∧ (bindRoute iv "/" v d (s, r)).1.createdRouteHandlers = s.createdRouteHandlers
        ∧ (s.bRootPreprocessorRegistered = false →
            (bindRoute iv "/" v d (s, r)).1.bRootPreprocessorRegistered = true
            ∧ (bindRoute iv "/" v d (s, r)).2.preprocessors
                = r.preprocessors ++ [r.nextHandle]))
    ∧ (∀ (iv : String → Bool) (v : Nat) (hd : DirectFn) (r : RouterState),
        s.hasRouter = true →
        (bindRouteNative iv "/" v hd (s, r)).2.boundRoutes = r.boundRoutes
        ∧ (bindRouteNative iv "/" v hd (s, r)).1.createdRouteHandlers
            = s.createdRouteHandlers) := by
  have hnroot : normalizeHttpPath "/" = "/" := by decide
  refine ⟨?_, ?_, ?_, ?_, ?_⟩
  · intro hne
    simp [rootPreprocessor, hne]
  · intro m hroot hm hv
    have hne : ¬ (request.relativePath ≠ "/") := by simp [hroot]
    simp [rootPreprocessor, if_neg hne, hm, hv]
  · intro hroot hverb
    have hne : ¬ (request.relativePath ≠ "/") := by simp [hroot]
    constructor
    · intro hck
      have h1 : rootPreprocessor decode s request = handleRequest decode s "/" request := by
        simp only [rootPreprocessor, if_neg hne]
        rcases hm : findEntry s.routeVerbs "/" with _ | m
        · simp [hck]
        · simp [hck, hverb m hm]
      exact ⟨h1, by rw [h1]; exact handleRequest_handled decode s "/" request⟩
    · intro hncb hnat
      have h1 : rootPreprocessor decode s request
          = handleRequestNative decode s "/" request := by
        simp only [rootPreprocessor, if_neg hne]
        rcases hm : findEntry s.routeVerbs "/" with _ | m
        · simp [hncb, hnat]
        · simp [hncb, hnat, hverb m hm]
      exact ⟨h1, by rw [h1]; exact handleRequestNative_handled decode s "/" request⟩
  · intro iv v d r hr
    by_cases hflag : s.bRootPreprocessorRegistered
    · refine ⟨?_, ?_, ?_⟩ <;> simp [bindRoute, hnroot, hr, hflag]
    · refine ⟨?_, ?_, ?_⟩ <;> simp [bindRoute, hnroot, hr, hflag]
  · intro iv v hd r hr
    by_cases hflag : s.bRootPreprocessorRegistered
    · constructor <;> simp [bindRouteNative, hnroot, hr, hflag]
    · constructor <;> simp [bindRouteNative, hnroot, hr, hflag]

/-- Witness for C5: on a server with "/" registered for GET, a request to
"/x" is not handled by the preprocessor, and a DELETE root request is not
handled either (verb outside the registered mask). -/
theorem rootPreprocessor_contract_witness :
    rootPreprocessor decode0 rootCallbackState reqX = (false, [])
    ∧ rootPreprocessor decode0 rootCallbackState (reqRoot VERB_DELETE) = (false, []) :=
  ⟨(rootPreprocessor_contract decode0 rootCallbackState reqX).1 (by decide),
   (rootPreprocessor_contract decode0 rootCallbackState (reqRoot VERB_DELETE)).2.1
     VERB_GET rfl rfl (by decide)⟩

/-! Teardown lemmas. -/

theorem unbindAll_eq_filter (hs : List Nat) (br : List BoundEntry) :
    hs.foldl (fun acc h => acc.filter (fun e => !decide (e.handle = h))) br
      = br.filter (fun e => !decide (e.handle ∈ hs)) := by
  induction hs generalizing br with
  | nil => simp
  | cons h rest ih =>
    rw [List.foldl_cons, ih, List.filter_filter]
    congr 1
    funext e
    by_cases he : e.handle = h
    · simp [he]
    · simp [he, List.mem_cons]

/-- C10: `StopServer` never empties the created-handle list and never
resets the started flag — after a stop the server still holds every created
handle, the route tables, the port and the router reference unchanged; with
a valid router it resets (only) the preprocessor flag and filters every
accumulated created handle out of the router's bindings (so a later stop
re-unbinds the same accumulated list again); without a router it changes
nothing on the server. -/
theorem stopServer_frame (s : ServerState) (r : RouterState) :
    (stopServer (s, r)).1.createdRouteHandlers = s.createdRouteHandlers
    ∧ (stopServer (s, r)).1.bServerStarted = s.bServerStarted
    ∧ (stopServer (s, r)).1.routeDelegates = s.routeDelegates
    ∧ (stopServer (s, r)).1.routeHandlers = s.routeHandlers
    ∧ (stopServer (s, r)).1.routeVerbs = s.routeVerbs
    ∧ (stopServer (s, r)).1.currentServerPort = s.currentServerPort
    ∧ (stopServer (s, r)).1.hasRouter = s.hasRouter
    ∧ (s.hasRouter = true → (stopServer (s, r)).1.bRootPreprocessorRegistered = false)
    ∧ (s.hasRouter = false → stopServer (s, r) = (s, { r with listening := false }))
    ∧ (s.hasRouter = true → (stopServer (s, r)).2.boundRoutes
        = r.boundRoutes.filter (fun e => decide (e.handle ∉ s.createdRouteHandlers))) := by
  cases hr : s.hasRouter <;> cases hflag : s.bRootPreprocessorRegistered <;>
    refine ⟨?_, ?_, ?_, ?_, ?_, ?_, ?_, ?_, ?_, ?_⟩ <;>
    simp [stopServer, hr, hflag, unbindAll_eq_filter]

/-- Witness for C10: with a router the preprocessor flag is reset by stop;
without a router stop only clears the process-wide listening flag. -/
theorem stopServer_frame_witness :
    (stopServer (serverWithRouter, initRouter)).1.bRootPreprocessorRegistered = false
    ∧ stopServer (initState, initRouter) = (initState, { initRouter with listening := false }) :=
  ⟨(stopServer_frame serverWithRouter initRouter).2.2.2.2.2.2.2.1 rfl,
   (stopServer_frame initState initRouter).2.2.2.2.2.2.2.2.1 rfl⟩

/-! Lifecycle lemmas: handle freshness, monotonicity and coverage. -/

theorem bindRoute_snd_nextHandle_mono (iv : String → Bool) (p : String) (v : Nat)
    (d : RouteDelegate) (sr : ServerState × RouterState) :
    sr.2.nextHandle ≤ (bindRoute iv p v d sr).2.nextHandle := by
  obtain ⟨s, r⟩ := sr
  simp only [bindRoute]
  split
  · split
    · split
      · exact Nat.le_refl _
      · exact Nat.le_succ _
    · split
      · exact Nat.le_succ _
      · exact Nat.le_refl _
  · exact Nat.le_refl _

theorem bindRouteNative_snd_nextHandle_mono (iv : String → Bool) (p : String) (v : Nat)
    (hd : DirectFn) (sr : ServerState × RouterState) :
    sr.2.nextHandle ≤ (bindRouteNative iv p v hd sr).2.nextHandle := by
  obtain ⟨s, r⟩ := sr
  simp only [bindRouteNative]
  split
  · split
    · split
      · exact Nat.le_refl _
      · exact Nat.le_succ _
    · split
      · exact Nat.le_succ _
      · exact Nat.le_refl _
  · exact Nat.le_refl _

theorem bindRoute_snd_bound_mono (iv : String → Bool) (p : String) (v : Nat)
    (d : RouteDelegate) (sr : ServerState × RouterState) :
    ∀ e ∈ sr.2.boundRoutes, e ∈ (bindRoute iv p v d sr).2.boundRoutes := by
  obtain ⟨s, r⟩ := sr
  intro e he
  simp only [bindRoute]
  split
  · split
    · split
      · exact he
      · exact he
    · split
      · exact List.mem_append_left _ he
      · exact he
  · exact he

theorem bindRouteNative_snd_bound_mono (iv : String → Bool) (p : String) (v : Nat)
    (hd : DirectFn) (sr : ServerState × RouterState) :
    ∀ e ∈ sr.2.boundRoutes, e ∈ (bindRouteNative iv p v hd sr).2.boundRoutes := by
  obtain ⟨s, r⟩ := sr
  intro e he
  simp only [bindRouteNative]
  split
  · split
    · split
      · exact he
      · exact he
    · split
      · exact List.mem_append_left _ he
      · exact he
  · exact he

theorem bindRoute_snd_bound_new (iv : String → Bool) (p : String) (v : Nat)
    (d : RouteDelegate) (sr : ServerState × RouterState) :
    ∀ e ∈ (bindRoute iv p v d sr).2.boundRoutes,
      e ∈ sr.2.boundRoutes ∨ sr.2.nextHandle ≤ e.handle := by
  obtain ⟨s, r⟩ := sr
  intro e he
  simp only [bindRoute] at he
  split at he
  · split at he
    · split at he
      · exact Or.inl he
      · exact Or.inl he
    · split at he
      · simp only [List.mem_append, List.mem_singleton] at he
        rcases he with he | he
        · exact Or.inl he
        · subst he; exact Or.inr (Nat.le_refl _)
      · exact Or.inl he
  · exact Or.inl he

theorem bindRouteNative_snd_bound_new (iv : String → Bool) (p : String) (v : Nat)
    (hd : DirectFn) (sr : ServerState × RouterState) :
    ∀ e ∈ (bindRouteNative iv p v hd sr).2.boundRoutes,
      e ∈ sr.2.boundRoutes ∨ sr.2.nextHandle ≤ e.handle := by
  obtain ⟨s, r⟩ := sr
  intro e he
  simp only [bindRouteNative] at he
  split at he
  · split at he
    · split at he
      · exact Or.inl he
      · exact Or.inl he
    · split at he
      · simp only [List.mem_append, List.mem_singleton] at he
        rcases he with he | he
        · exact Or.inl he
        · subst he; exact Or.inr (Nat.le_refl _)
      · exact Or.inl he
  · exact Or.inl he

theorem bindRoute_inv (iv : String → Bool) (p : String) (v : Nat) (d : RouteDelegate)
    (sr : ServerState × RouterState) (hI : handlesBelow sr) :
    handlesBelow (bindRoute iv p v d sr) := by
  obtain ⟨s, r⟩ := sr
  obtain ⟨h1, h2⟩ := hI
  simp only [handlesBelow, bindRoute]
  split
  · split
    · split
      · exact ⟨h1, h2⟩
      · constructor
        · intro h hh; exact Nat.lt_succ_of_lt (h1 h hh)
        · intro e he; exact Nat.lt_succ_of_lt (h2 e he)
    · split
      · constructor
        · intro h hh
          simp only [List.mem_append, List.mem_singleton] at hh
          rcases hh with hh | hh
          · exact Nat.lt_succ_of_lt (h1 h hh)
          · subst hh; exact Nat.lt_succ_self _
        · intro e he
          simp only [List.mem_append, List.mem_singleton] at he
          rcases he with he | he
          · exact Nat.lt_succ_of_lt (h2 e he)
          · subst he; exact Nat.lt_succ_self _
      · exact ⟨h1, h2⟩
  · exact ⟨h1, h2⟩

theorem bindRouteNative_inv (iv : String → Bool) (p : String) (v : Nat) (hd : DirectFn)
    (sr : ServerState × RouterState) (hI : handlesBelow sr) :
    handlesBelow (bindRouteNative iv p v hd sr) := by
  obtain ⟨s, r⟩ := sr
  obtain ⟨h1, h2⟩ := hI
  simp only [handlesBelow, bindRouteNative]
  split
  · split
    · split
      · exact ⟨h1, h2⟩
      · constructor
        · intro h hh; exact Nat.lt_succ_of_lt (h1 h hh)
        · intro e he; exact Nat.lt_succ_of_lt (h2 e he)
    · split
      · constructor
        · intro h hh
          simp only [List.mem_append, List.mem_singleton] at hh
          rcases hh with hh | hh
          · exact Nat.lt_succ_of_lt (h1 h hh)
          · subst hh; exact Nat.lt_succ_self _
        · intro e he
          simp only [List.mem_append, List.mem_singleton] at he
          rcases he with he | he
          · exact Nat.lt_succ_of_lt (h2 e he)
          · subst he; exact Nat.lt_succ_self _
      · exact ⟨h1, h2⟩
  · exact ⟨h1, h2⟩

theorem bindRoute_fst_hasRouter (iv : String → Bool) (p : String) (v : Nat)
    (d : RouteDelegate) (sr : ServerState × RouterState) :
    (bindRoute iv p v d sr).1.hasRouter = sr.1.hasRouter := by
  obtain ⟨s, r⟩ := sr
  simp only [bindRoute]
  split <;> try rfl
  split <;> try rfl
  · split <;> rfl
  · split <;> rfl

theorem bindRouteNative_fst_hasRouter (iv : String → Bool) (p : String) (v : Nat)
    (hd : DirectFn) (sr : ServerState × RouterState) :
    (bindRouteNative iv p v hd sr).1.hasRouter = sr.1.hasRouter := by
  obtain ⟨s, r⟩ := sr
  simp only [bindRouteNative]
  split <;> try rfl
  split <;> try rfl
  · split <;> rfl
  · split <;> rfl

theorem bindRoute_binds (iv : String → Bool) (p : String) (v : Nat) (d : RouteDelegate)
    (sr : ServerState × RouterState) (hr : sr.1.hasRouter = true)
    (hnp : normalizeHttpPath p ≠ "/") (hiv : iv (normalizeHttpPath p) = true) :
    ({ handle := sr.2.nextHandle, path := normalizeHttpPath p, verbs := v,
       kind := HandlerKind.callback } : BoundEntry)
      ∈ (bindRoute iv p v d sr).2.boundRoutes := by
  obtain ⟨s, r⟩ := sr
  have hr2 : s.hasRouter = true := hr
  simp only [bindRoute]
  simp [hr2, hnp, hiv]

theorem bindRouteNative_binds (iv : String → Bool) (p : String) (v : Nat) (hd : DirectFn)
    (sr : ServerState × RouterState) (hr : sr.1.hasRouter = true)
    (hnp : normalizeHttpPath p ≠ "/") (hiv : iv (normalizeHttpPath p) = true) :
    ({ handle := sr.2.nextHandle, path := normalizeHttpPath p, verbs := v,
       kind := HandlerKind.native } : BoundEntry)
      ∈ (bindRouteNative iv p v hd sr).2.boundRoutes := by
  obtain ⟨s, r⟩ := sr
  have hr2 : s.hasRouter = true := hr
  simp only [bindRouteNative]
  simp [hr2, hnp, hiv]

theorem runBindCmd_snd_nextHandle_mono (iv : String → Bool) (sr : ServerState × RouterState)
    (c : BindCmd) : sr.2.nextHandle ≤ (runBindCmd iv sr c).2.nextHandle := by
  cases c with
  | callback p v d => exact bindRoute_snd_nextHandle_mono iv p v d sr
  | native p v hd => exact bindRouteNative_snd_nextHandle_mono iv p v hd sr

theorem runBindCmd_snd_bound_mono (iv : String → Bool) (sr : ServerState × RouterState)
    (c : BindCmd) : ∀ e ∈ sr.2.boundRoutes, e ∈ (runBindCmd iv sr c).2.boundRoutes := by
  cases c with
  | callback p v d => exact bindRoute_snd_bound_mono iv p v d sr
  | native p v hd => exact bindRouteNative_snd_bound_mono iv p v hd sr

theorem runBindCmd_snd_bound_new (iv : String → Bool) (sr : ServerState × RouterState)
    (c : BindCmd) : ∀ e ∈ (runBindCmd iv sr c).2.boundRoutes,
      e ∈ sr.2.boundRoutes ∨ sr.2.nextHandle ≤ e.handle := by
  cases c with
  | callback p v d => exact bindRoute_snd_bound_new iv p v d sr
  | native p v hd => exact bindRouteNative_snd_bound_new iv p v hd sr

theorem runBindCmd_inv (iv : String → Bool) (sr : ServerState × RouterState) (c : BindCmd)
    (hI : handlesBelow sr) : handlesBelow (runBindCmd iv sr c) := by
  cases c with
  | callback p v d => exact bindRoute_inv iv p v d sr hI
  | native p v hd => exact bindRouteNative_inv iv p v hd sr hI

theorem runBindCmd_fst_hasRouter (iv : String → Bool) (sr : ServerState × RouterState)
    (c : BindCmd) : (runBindCmd iv sr c).1.hasRouter = sr.1.hasRouter := by
  cases c with
  | callback p v d => exact bindRoute_fst_hasRouter iv p v d sr
  | native p v hd => exact bindRouteNative_fst_hasRouter iv p v hd sr

theorem runBindCmd_binds (iv : String → Bool) (sr : ServerState × RouterState) (c : BindCmd)
    (hr : sr.1.hasRouter = true) (hnp : cmdPath c ≠ "/") (hiv : iv (cmdPath c) = true) :
    ({ handle := sr.2.nextHandle, path := cmdPath c, verbs := cmdVerbs c,
       kind := cmdKind c } : BoundEntry) ∈ (runBindCmd iv sr c).2.boundRoutes := by
  cases c with
  | callback p v d => exact bindRoute_binds iv p v d sr hr hnp hiv
  | native p v hd => exact bindRouteNative_binds iv p v hd sr hr hnp hiv

theorem runScript_cons (iv : String → Bool) (c : BindCmd) (rest : List BindCmd)
    (sr : ServerState × RouterState) :
    runScript iv (c :: rest) sr = runScript iv rest (runBindCmd iv sr c) := rfl

theorem runScript_snd_nextHandle_mono (iv : String → Bool) (script : List BindCmd) :
    ∀ sr : ServerState × RouterState,
      sr.2.nextHandle ≤ (runScript iv script sr).2.nextHandle := by
  induction script with
  | nil => intro sr; exact Nat.le_refl _
  | cons c rest ih =>
    intro sr
    rw [runScript_cons]
    exact Nat.le_trans (runBindCmd_snd_nextHandle_mono iv sr c) (ih (runBindCmd iv sr c))

theorem runScript_snd_bound_mono (iv : String → Bool) (script : List BindCmd) :
    ∀ sr : ServerState × RouterState,
      ∀ e ∈ sr.2.boundRoutes, e ∈ (runScript iv script sr).2.boundRoutes := by
  induction script with
  | nil => intro sr e he; exact he
  | cons c rest ih =>
    intro sr e he
    rw [runScript_cons]
    exact ih (runBindCmd iv sr c) e (runBindCmd_snd_bound_mono iv sr c e he)

theorem runScript_snd_bound_new (iv : String → Bool) (script : List BindCmd) :
    ∀ sr : ServerState × RouterState,
      ∀ e ∈ (runScript iv script sr).2.boundRoutes,
        e ∈ sr.2.boundRoutes ∨ sr.2.nextHandle ≤ e.handle := by
  induction script with
  | nil => intro sr e he; exact Or.inl he
  | cons c rest ih =>
    intro sr e he
    rw [runScript_cons] at he
    rcases ih (runBindCmd iv sr c) e he with he2 | he2
    · exact runBindCmd_snd_bound_new iv sr c e he2
    · exact Or.inr (Nat.le_trans (runBindCmd_snd_nextHandle_mono iv sr c) he2)

theorem runScript_inv (iv : String → Bool) (script : List BindCmd) :
    ∀ sr : ServerState × RouterState,
      handlesBelow sr → handlesBelow (runScript iv script sr) := by
  induction script with
  | nil => intro sr hI; exact hI
  | cons c rest ih =>
    intro sr hI
    rw [runScript_cons]
    exact ih (runBindCmd iv sr c) (runBindCmd_inv iv sr c hI)

theorem runScript_fst_hasRouter (iv : String → Bool) (script : List BindCmd) :
    ∀ sr : ServerState × RouterState,
      (runScript iv script sr).1.hasRouter = sr.1.hasRouter := by
  induction script with
  | nil => intro sr; rfl
  | cons c rest ih =>
    intro sr
    rw [runScript_cons, ih (runBindCmd iv sr c), runBindCmd_fst_hasRouter]

theorem runScript_covers (iv : String → Bool) (script : List BindCmd) :
    ∀ sr : ServerState × RouterState, sr.1.hasRouter = true →
      ∀ c ∈ script, cmdPath c ≠ "/" → iv (cmdPath c) = true →
        ∃ e ∈ (runScript iv script sr).2.boundRoutes,
          e.path = cmdPath c ∧ e.verbs = cmdVerbs c ∧ e.kind = cmdKind c := by
  induction script with
  | nil => intro sr _ c hc; exact absurd hc (List.not_mem_nil c)
  | cons c0 rest ih =>
    intro sr hr c hc hnp hiv
    rw [runScript_cons]
    rcases List.mem_cons.mp hc with hc | hc
    · subst hc
      have hb := runBindCmd_binds iv sr c hr hnp hiv
      have hb2 := runScript_snd_bound_mono iv rest (runBindCmd iv sr c) _ hb
      exact ⟨_, hb2, rfl, rfl, rfl⟩
    · refine ih (runBindCmd iv sr c0) ?_ c hc hnp hiv
      rw [runBindCmd_fst_hasRouter]
      exact hr

theorem stopServer_fst_created (sr : ServerState × RouterState) :
    (stopServer sr).1.createdRouteHandlers = sr.1.createdRouteHandlers := by
  obtain ⟨s, r⟩ := sr
  cases hr : s.hasRouter <;> cases hflag : s.bRootPreprocessorRegistered <;>
    simp [stopServer, hr, hflag]

theorem stopServer_snd_nextHandle (sr : ServerState × RouterState) :
    (stopServer sr).2.nextHandle = sr.2.nextHandle := by
  obtain ⟨s, r⟩ := sr
  cases hr : s.hasRouter <;> cases hflag : s.bRootPreprocessorRegistered <;>
    simp [stopServer, hr, hflag]

theorem stopServer_fst_hasRouter (sr : ServerState × RouterState) :
    (stopServer sr).1.hasRouter = sr.1.hasRouter := by
  obtain ⟨s, r⟩ := sr
  cases hr : s.hasRouter <;> cases hflag : s.bRootPreprocessorRegistered <;>
    simp [stopServer, hr, hflag]

theorem stopServer_snd_bound (sr : ServerState × RouterState) (hr : sr.1.hasRouter = true) :
    (stopServer sr).2.boundRoutes
      = sr.2.boundRoutes.filter
          (fun e => !decide (e.handle ∈ sr.1.createdRouteHandlers)) := by
  obtain ⟨s, r⟩ := sr
  have hr2 : s.hasRouter = true := hr
  cases hflag : s.bRootPreprocessorRegistered <;>
    simp [stopServer, hr2, hflag, unbindAll_eq_filter]

theorem startServer_run (iv : String → Bool) (script : List BindCmd) (port : Int)
    (sr : ServerState × RouterState) (hp : 0 < port) :
    startServer iv script true port sr
      = ({ (runScript iv script
              ({ sr.1 with currentServerPort := port, hasRouter := true }, sr.2)).1
            with bServerStarted := true },
         { (runScript iv script
              ({ sr.1 with currentServerPort := port, hasRouter := true }, sr.2)).2
            with listening := true }) := by
  obtain ⟨s, r⟩ := sr
  have hple : ¬ (port ≤ 0) := by omega
  simp [startServer, hple]

/-- C1 counterexample: a route registered before any start goes only into
the table (the router is not valid yet); a then-successful `StartServer`
runs only the `ReceiveBindRoutes` pass (empty here) and never iterates the
table, so the registered route "/a" is bound nowhere even though the start
succeeded. -/
theorem start_does_not_bind_preregistered_cex :
    findEntry preRegisteredRun.1.routeVerbs "/a" = some VERB_GET
    ∧ containsKey preRegisteredRun.1.routeDelegates "/a" = true
    ∧ preRegisteredRun.1.bServerStarted = true
    ∧ preRegisteredRun.2.boundRoutes = [] :=
  ⟨rfl, rfl, rfl, rfl⟩

/-- C1 (amended): a successful start binds exactly the routes registered
during its `ReceiveBindRoutes` bind pass (plus any registered later while
the router is held) — not table entries recorded while no router was held.
After start-stop-start with bind pass `script`: no handle created during
the first session is still bound in the router; every valid non-root route
of the second bind pass is bound; and the server is running. -/
theorem restart_rebinds (iv : String → Bool) (script : List BindCmd) (port₁ port₂ : Int)
    (s : ServerState) (r : RouterState)
    (hp1 : 0 < port₁) (hp2 : 0 < port₂) (hinv : handlesBelow (s, r)) :
    (∀ h ∈ (startServer iv script true port₁ (s, r)).1.createdRouteHandlers,
      ∀ e ∈ (startServer iv script true port₂
          (stopServer (startServer iv script true port₁ (s, r)))).2.boundRoutes,
        e.handle ≠ h)
    ∧ (∀ c ∈ script, cmdPath c ≠ "/" → iv (cmdPath c) = true →
        ∃ e ∈ (startServer iv script true port₂
            (stopServer (startServer iv script true port₁ (s, r)))).2.boundRoutes,
          e.path = cmdPath c ∧ e.verbs = cmdVerbs c ∧ e.kind = cmdKind c)
    ∧ (startServer iv script true port₂
        (stopServer (startServer iv script true port₁ (s, r)))).1.bServerStarted = true
    ∧ (startServer iv script true port₂
        (stopServer (startServer iv script true port₁ (s, r)))).2.listening = true := by
  rw [startServer_run iv script port₁ (s, r) hp1]
  generalize hA :
    runScript iv script ({ s with currentServerPort := port₁, hasRouter := true }, r) = A
  have hAr : A.1.hasRouter = true := by
    rw [← hA, runScript_fst_hasRouter]
  have hAinv : handlesBelow A := by
    rw [← hA]
    exact runScript_inv iv script _ hinv
  rw [startServer_run iv script port₂ _ hp2]
  generalize hB :
    runScript iv script
      ({ (stopServer ({ A.1 with bServerStarted := true },
            { A.2 with listening := true })).1
          with currentServerPort := port₂, hasRouter := true },
        (stopServer ({ A.1 with bServerStarted := true },
            { A.2 with listening := true })).2) = B
  have hstopr : ({ A.1 with bServerStarted := true } : ServerState).hasRouter = true := hAr
  have hstopbound := stopServer_snd_bound
    ({ A.1 with bServerStarted := true }, { A.2 with listening := true }) hstopr
  have hstopnext := stopServer_snd_nextHandle
    ({ A.1 with bServerStarted := true }, { A.2 with listening := true })
  refine ⟨?_, ?_, rfl, rfl⟩
  · intro h hh e he
    have hh2 : h ∈ A.1.createdRouteHandlers := hh
    have he2 : e ∈ B.2.boundRoutes := he
    rw [← hB] at he2
    rcases runScript_snd_bound_new iv script _ e he2 with hold | hnew
    · have hold2 := hold
      rw [hstopbound] at hold2
      have := (List.mem_filter.mp hold2).2
      simp only [Bool.not_eq_eq_eq_not, Bool.not_true, decide_eq_false_iff_not] at this
      intro heq
      exact this (heq ▸ hh2)
    · have hlt : h < A.2.nextHandle := hAinv.1 h hh2
      have hge : A.2.nextHandle ≤ e.handle := by
        rw [hstopnext] at hnew
        exact hnew
      omega
  · intro c hc hnp hiv
    have hcov := runScript_covers iv script
      ({ (stopServer ({ A.1 with bServerStarted := true },
            { A.2 with listening := true })).1
          with currentServerPort := port₂, hasRouter := true },
        (stopServer ({ A.1 with bServerStarted := true },
            { A.2 with listening := true })).2) rfl c hc hnp hiv
    rw [hB] at hcov
    exact hcov

/-- Witness for the amended C1 theorem: a start-stop-start cycle whose bind
pass registers "/w" for GET ends with "/w" bound as a callback route. -/
theorem restart_rebinds_witness :
    ∃ e ∈ (startServer ivTrue [BindCmd.callback "/w" VERB_GET (some cbFn0)] true 8081
        (stopServer (startServer ivTrue [BindCmd.callback "/w" VERB_GET (some cbFn0)] true 8080
          (initState, initRouter)))).2.boundRoutes,
      e.path = cmdPath (BindCmd.callback "/w" VERB_GET (some cbFn0))
      ∧ e.verbs = cmdVerbs (BindCmd.callback "/w" VERB_GET (some cbFn0))
      ∧ e.kind = cmdKind (BindCmd.callback "/w" VERB_GET (some cbFn0)) := by
  have h := restart_rebinds ivTrue [BindCmd.callback "/w" VERB_GET (some cbFn0)] 8080 8081
    initState initRouter (by decide) (by decide)
    (by refine ⟨?_, ?_⟩ <;> intro x hx <;> simp [initState, initRouter] at hx)
  exact h.2.1 _ (List.mem_singleton_self _) (by decide) rfl

end SimpleHttpServer
